import Mathlib

/-
Verification of the sqlite_flux concurrency and resource-management core:
a shallow embedding of the Analyzer (Resource), ConnectionPool (ResourcePool
plus Guard), ThreadPool (WorkerPool), Task promise publication and the
AsyncExecutor worker closures, with theorems about the claimed properties.
Sources: include/Analyzer.h, src/Analyzer.cpp, include/ConnectionPool.h,
src/ConnectionPool.cpp, include/AsyncExecutor.h, src/AsyncExecutor.cpp.
-/

namespace SqliteFlux

/-- One SQLite column value (include/ColumnValue.h variant:
monostate, int64_t, double, string, blob).  The double alternative is
carried as its raw bit pattern, uninterpreted, since no verified claim
computes with floating point. -/
inductive ColumnValue where
  | nullVal : ColumnValue
  | intVal (i : Int) : ColumnValue
  | realVal (bits : Nat) : ColumnValue
  | textVal (s : String) : ColumnValue
  | blobVal (bs : List Nat) : ColumnValue
deriving DecidableEq, Repr

/-- A row maps column names to values (TableTypes.h `Row`); modelled as an
association list. -/
abbrev Row : Type := List (String × ColumnValue)

/-- A result set is a list of rows (TableTypes.h `ResultSet`). -/
abbrev ResultSet : Type := List Row

/-- Column metadata from PRAGMA table_info (TableTypes.h `ColumnInfo`). -/
structure ColumnInfo where
  name : String
  type : String
  notNull : Bool
  primaryKey : Bool
deriving DecidableEq, Repr

/-- Ordered column descriptors of one table (TableTypes.h `TableSchema`). -/
abbrev TableSchema : Type := List ColumnInfo

/-- Association-list lookup by column or table name (models
unordered_map find / operator access on the read side). -/
def assocLookup {α : Type} : List (String × α) → String → Option α
  | [], _ => none
  | (k, v) :: rest, t => if k = t then some v else assocLookup rest t

/-- Association-list overwrite-or-insert (models unordered_map
operator-square-brackets assignment). -/
def assocInsert {α : Type} : List (String × α) → String → α → List (String × α)
  | [], t, v => [(t, v)]
  | (k, w) :: rest, t, v =>
    if k = t then (t, v) :: rest else (k, w) :: assocInsert rest t v

/-- Type-safe value extraction, ValueVisitor.h getValue instantiated at
int64_t: find the key in the row (nullopt when absent), then get_if the
variant's int64_t alternative — the value when it holds an integer,
nullopt for every other alternative. -/
def getValueInt (row : Row) (col : String) : Option Int :=
  match assocLookup row col with
  | some (ColumnValue.intVal i) => some i
  | _ => none

/-- The behaviour of one opened sqlite3 handle, as an oracle fixed for the
handle's lifetime (the claims under verification assume no intervening
schema change): the table list from sqlite_master, PRAGMA table_info per
table, prepare-and-step outcomes per SQL text (`none` = prepare fails),
sqlite3_errmsg text, sqlite3_exec outcomes and error text, and whether the
WAL pragma succeeds. -/
structure Db where
  tables : List String
  tableInfo : String → TableSchema
  queryRes : String → Option ResultSet
  errMsg : String → String
  execOk : String → Bool
  execErr : String → String
  walOk : Bool

/-- PRAGMA table_info(t) read against the engine (the row loop of
Analyzer::getTableSchema / cacheAllSchemas). -/
def fetchSchema (d : Db) (t : String) : TableSchema := d.tableInfo t

/-- State of one Analyzer (Analyzer::Impl): the native handle (none =
closed), the last-error text, the schema cache, the cache-initialized
flag and the WAL flag. -/
structure Analyzer where
  db : Option Db
  lastError : String
  schemaCache : List (String × TableSchema)
  isCacheInitialized : Bool
  walModeEnabled : Bool

/-- A freshly default-constructed Impl: null handle, empty error, empty
cache, both flags false. -/
def Analyzer.mkClosed : Analyzer :=
  { db := none, lastError := "", schemaCache := [], isCacheInitialized := false
    walModeEnabled := false }

/-- Analyzer::isOpen. -/
def Analyzer.isOpen (a : Analyzer) : Bool := a.db.isSome

/-- Analyzer::close — closes and nulls the handle. -/
def Analyzer.close (a : Analyzer) : Analyzer := { a with db := none }

/-- Analyzer::open — close(), then sqlite3_open (the oracle argument is its
outcome: a Db on success, the errmsg text on failure).  On failure it
records the error, closes the half-open handle and returns false; on
success it attempts the WAL pragmas (setting the WAL flag if they
succeed) and returns true. -/
def Analyzer.openDb (a : Analyzer) (res : Except String Db) : Bool × Analyzer :=
  let a0 := a.close
  match res with
  | Except.error msg => (false, { a0 with db := none, lastError := msg })
  | Except.ok d =>
      (true, { a0 with db := some d, walModeEnabled := a0.walModeEnabled || d.walOk })

/-- Analyzer::query — returns an empty set when the handle is closed,
records errmsg and returns empty when prepare fails, else the stepped
rows. -/
def Analyzer.query (a : Analyzer) (sql : String) : ResultSet × Analyzer :=
  match a.db with
  | none => ([], a)
  | some d =>
    match d.queryRes sql with
    | none => ([], { a with lastError := d.errMsg sql })
    | some rows => (rows, a)

/-- Analyzer::selectAll. -/
def Analyzer.selectAll (a : Analyzer) (t : String) : ResultSet × Analyzer :=
  a.query ("SELECT * FROM " ++ t)

/-- Analyzer::selectWhere. -/
def Analyzer.selectWhere (a : Analyzer) (t w : String) : ResultSet × Analyzer :=
  a.query ("SELECT * FROM " ++ t ++ " WHERE " ++ w)

/-- Analyzer::execute — false when the handle is closed; on sqlite3_exec
failure records the message and returns false; else true. -/
def Analyzer.execute (a : Analyzer) (sql : String) : Bool × Analyzer :=
  match a.db with
  | none => (false, a)
  | some d =>
    if d.execOk sql then (true, a)
    else (false, { a with lastError := d.execErr sql })

/-- Analyzer::beginTransaction. -/
def Analyzer.beginTransaction (a : Analyzer) : Bool × Analyzer :=
  a.execute "BEGIN TRANSACTION"

/-- Analyzer::commit. -/
def Analyzer.commit (a : Analyzer) : Bool × Analyzer := a.execute "COMMIT"

/-- Analyzer::rollback. -/
def Analyzer.rollback (a : Analyzer) : Bool × Analyzer := a.execute "ROLLBACK"

/-- Analyzer::getLastError. -/
def Analyzer.getLastError (a : Analyzer) : String := a.lastError

/-- Analyzer::getRowCount — runs the COUNT(*) query; empty result means
failure (none); otherwise projects the first row's count column. -/
def Analyzer.getRowCount (a : Analyzer) (t : String) : Option Int :=
  match (a.query ("SELECT COUNT(*) as count FROM " ++ t)).1 with
  | [] => none
  | row :: _ => getValueInt row "count"

/-- Result of Analyzer::getTableSchema: the schema returned, the state
afterwards, and whether the engine's metadata was queried (PRAGMA
table_info actually ran) on this call. -/
structure GtsResult where
  schema : TableSchema
  state : Analyzer
  dbQueried : Bool

/-- Slow path of Analyzer::getTableSchema: with the exclusive cache lock
and the operation lock held, return empty if the handle is closed (no
cache write), else fetch PRAGMA table_info, store it in the cache, and
return it. -/
def Analyzer.gtsFetch (a : Analyzer) (t : String) : GtsResult :=
  match a.db with
  | none => { schema := [], state := a, dbQueried := false }
  | some d =>
    let sch := fetchSchema d t
    { schema := sch
      state := { a with schemaCache := assocInsert a.schemaCache t sch }
      dbQueried := true }

/-- Analyzer::getTableSchema — fast path: if the cache-initialized flag is
set, look the table up under the shared lock and return a hit immediately;
on a miss, or whenever the flag is unset, fall through to the fetching
slow path. -/
def Analyzer.getTableSchema (a : Analyzer) (t : String) : GtsResult :=
  if a.isCacheInitialized then
    match assocLookup a.schemaCache t with
    | some sch => { schema := sch, state := a, dbQueried := false }
    | none => a.gtsFetch t
  else a.gtsFetch t

/-- Analyzer::cacheAllSchemas — no-op when the handle is closed; else
enumerate sqlite_master's tables, store each schema, and set the
cache-initialized flag last. -/
def Analyzer.cacheAllSchemas (a : Analyzer) : Analyzer :=
  match a.db with
  | none => a
  | some d =>
    { a with
      schemaCache :=
        d.tables.foldl (fun c t => assocInsert c t (fetchSchema d t)) a.schemaCache
      isCacheInitialized := true }

/-- Analyzer::isSchemaCached. -/
def Analyzer.isSchemaCached (a : Analyzer) : Bool := a.isCacheInitialized

/-- Analyzer::clearSchemaCache — empties the map and clears the flag. -/
def Analyzer.clearSchemaCache (a : Analyzer) : Analyzer :=
  { a with schemaCache := [], isCacheInitialized := false }

/-- Analyzer::getCachedSchema. -/
def Analyzer.getCachedSchema (a : Analyzer) (t : String) : Option TableSchema :=
  assocLookup a.schemaCache t

/-- Analyzer::enableWALMode — false on a closed handle; on pragma failure
records an error and leaves the mode unchanged; on success sets the flag. -/
def Analyzer.enableWALMode (a : Analyzer) : Bool × Analyzer :=
  match a.db with
  | none => (false, a)
  | some d =>
    if d.walOk then (true, { a with walModeEnabled := true })
    else (false, { a with lastError := d.errMsg "PRAGMA journal_mode=WAL" })

/-- The Analyzer operations that can touch the schema-cache flag, as one
step alphabet (used to state which operations may flip it). -/
inductive AnalyzerOp where
  | doOpen (res : Except String Db)
  | doClose
  | doQuery (sql : String)
  | doExecute (sql : String)
  | doBeginTransaction
  | doCommit
  | doRollback
  | doGetTableSchema (t : String)
  | doCacheAllSchemas
  | doClearSchemaCache
  | doEnableWAL

/-- Whether an operation is cacheAllSchemas. -/
def AnalyzerOp.isCacheAll : AnalyzerOp → Bool
  | .doCacheAllSchemas => true
  | _ => false

/-- Whether an operation is clearSchemaCache. -/
def AnalyzerOp.isClear : AnalyzerOp → Bool
  | .doClearSchemaCache => true
  | _ => false

/-- State transition of one Analyzer operation (outputs discarded). -/
def Analyzer.stepOp (a : Analyzer) : AnalyzerOp → Analyzer
  | .doOpen res => (a.openDb res).2
  | .doClose => a.close
  | .doQuery sql => (a.query sql).2
  | .doExecute sql => (a.execute sql).2
  | .doBeginTransaction => a.beginTransaction.2
  | .doCommit => a.commit.2
  | .doRollback => a.rollback.2
  | .doGetTableSchema t => (a.getTableSchema t).state
  | .doCacheAllSchemas => a.cacheAllSchemas
  | .doClearSchemaCache => a.clearSchemaCache
  | .doEnableWAL => a.enableWALMode.2

/-- State of the promise of a Task coroutine (AsyncExecutor.h
Task promise_type): the member `T value_;` — `none` models the
default-initialized member that no return_value call has ever written —
and whether exception_ was set by unhandled_exception. -/
structure TaskPromise (T : Type) where
  value : Option T
  exceptionSet : Bool

/-- A freshly created promise: the value member unwritten, no exception. -/
def TaskPromise.fresh (T : Type) : TaskPromise T :=
  { value := none, exceptionSet := false }

/-- Task promise_type return_value, exactly as written in the source:
`void return_value(T value_)` declares a parameter named `value_` that
shadows the member `value_`, so the body's assignment writes the moved
parameter back into the parameter itself and the promise is unchanged. -/
def TaskPromise.returnValue {T : Type} (p : TaskPromise T) (v : T) : TaskPromise T :=
  let valueLocal := v
  let _ := valueLocal
  p

/-- Task await_resume (also Task::get): rethrows a stored exception
(modelled as none), else returns the promise's value member — `none` when
that member was never written. -/
def TaskPromise.awaitResume {T : Type} (p : TaskPromise T) : Option T :=
  if p.exceptionSet then none else p.value

/-- The value observable from a Task handle after the coroutine body ran
`co_return workerResult`: return_value is invoked on a fresh promise with
the worker's result, then the caller reads it back through get. -/
def taskPublished (T : Type) (workerResult : T) : Option T :=
  ((TaskPromise.fresh T).returnValue workerResult).awaitResume

/-- State of the ThreadPool (AsyncExecutor.h / AsyncExecutor.cpp): the
FIFO task queue (tasks identified by number), the log of executed tasks in
execution order, and the stop flag. -/
structure ThreadPool where
  tasks : List Nat
  executed : List Nat
  stopRequested : Bool

/-- ThreadPool::enqueue — under the queue lock, throws if the stop flag is
already set, else appends the task to the queue. -/
def ThreadPool.enqueue (tp : ThreadPool) (t : Nat) : Except String ThreadPool :=
  if tp.stopRequested then Except.error "ThreadPool is stopped"
  else Except.ok { tp with tasks := tp.tasks ++ [t] }

/-- One iteration of ThreadPool::workerThread's loop: wait until stopped
or the queue is non-empty; if stopped with an empty queue, return (the
thread exits, modelled as none); else pop and execute the front task if
any. -/
def ThreadPool.workerStep (tp : ThreadPool) : Option ThreadPool :=
  if tp.stopRequested && tp.tasks.isEmpty then none
  else
    match tp.tasks with
    | [] => some tp
    | t :: ts => some { tp with tasks := ts, executed := tp.executed ++ [t] }

/-- Iterate the worker loop a bounded number of times (stopping early when
the thread exits). -/
def ThreadPool.runWorker : ThreadPool → Nat → ThreadPool
  | tp, 0 => tp
  | tp, Nat.succ n =>
    match tp.workerStep with
    | none => tp
    | some tp' => tp'.runWorker n

/-- The drain phase of the worker loop, recursing on the queue:
pop-and-execute the front task until the queue is empty (this is what the
loop does once the stop flag is up). -/
def ThreadPool.drainFrom (executed : List Nat) (stopR : Bool) :
    List Nat → ThreadPool
  | [] => { tasks := [], executed := executed, stopRequested := stopR }
  | t :: ts => ThreadPool.drainFrom (executed ++ [t]) stopR ts

/-- The drain phase of the worker loop applied to a pool state. -/
def ThreadPool.drain (tp : ThreadPool) : ThreadPool :=
  ThreadPool.drainFrom tp.executed tp.stopRequested tp.tasks

/-- Errors thrown by the ConnectionPool constructor. -/
inductive PoolCtorError where
  | invalidArgument (msg : String)
  | runtimeError (msg : String)

/-- Outcome of running the ConnectionPool constructor: the constructor's
result (the pre-created pool_ queue, or the thrown error), and the
Analyzer objects still alive once the constructor has returned or its
stack has unwound. -/
structure CtorOutcome where
  result : Except PoolCtorError (List Analyzer)
  survivors : List Analyzer

/-- The constructor's pre-creation loop: for each index, construct an
Analyzer (its constructor runs open with that index's sqlite3_open
outcome); if it is not open, throw runtime_error with the connection's
last error; else optionally enable WAL, cache all schemas, and push it
onto the queue. -/
def ctorLoop (mk : Nat → Except String Db) (enableWAL : Bool) :
    Nat → Nat → List Analyzer → Except PoolCtorError (List Analyzer)
  | _, 0, acc => Except.ok acc
  | i, Nat.succ r, acc =>
    let conn := (Analyzer.mkClosed.openDb (mk i)).2
    if conn.isOpen then
      let conn1 := if enableWAL then conn.enableWALMode.2 else conn
      let conn2 := conn1.cacheAllSchemas
      ctorLoop mk enableWAL (i + 1) r (acc ++ [conn2])
    else
      Except.error (PoolCtorError.runtimeError
        ("Failed to open database connection: " ++ conn.getLastError))

/-- ConnectionPool::ConnectionPool — rejects poolSize zero with
invalid_argument before any Analyzer is constructed; otherwise runs the
pre-creation loop.  When the loop throws, C++ stack unwinding destroys
the local connection (its failed open already closed its handle) and the
partially filled pool_ member, whose unique_ptr destructors run each
Analyzer's Impl destructor, closing its handle: no Analyzer survives a
failed construction. -/
def ConnectionPool.construct (mk : Nat → Except String Db) (poolSize : Nat)
    (enableWAL : Bool) : CtorOutcome :=
  if poolSize = 0 then
    { result := Except.error
        (PoolCtorError.invalidArgument "Connection pool size must be greater than 0")
      survivors := [] }
  else
    match ctorLoop mk enableWAL 0 poolSize [] with
    | Except.ok conns => { result := Except.ok conns, survivors := conns }
    | Except.error e => { result := Except.error e, survivors := [] }

/-- Number of open handles left alive by a construction attempt. -/
def CtorOutcome.openHandles (out : CtorOutcome) : Nat :=
  (out.survivors.filter Analyzer.isOpen).length

/-- Counting state of a ConnectionPool: pool_.size() (idle queue length),
totalConnections_, outstandingConnections_ and the shutdown flag. -/
structure PoolState where
  idleCount : Nat
  totalConnections : Nat
  outstanding : Nat
  shutdown : Bool

/-- State of a freshly constructed pool of size n. -/
def PoolState.init (n : Nat) : PoolState :=
  { idleCount := n, totalConnections := n, outstanding := 0, shutdown := false }

/-- Completed pool operations as trace events.  acquireOk / tryAcquireOk
are acquisitions that popped a connection; the Throw events are calls that
observed shutdown and threw; tryAcquireTimeout returned empty;
releaseConn is a release of a borrowed connection, releaseNull a release
of a null pointer (a no-op). -/
inductive PoolEvent where
  | acquireOk
  | acquireThrow
  | tryAcquireOk
  | tryAcquireTimeout
  | tryAcquireThrow
  | releaseConn
  | releaseNull
deriving DecidableEq, Repr

/-- Whether an event can complete in a state: successful acquisition needs
a non-empty idle queue and no shutdown; the throwing variants need
shutdown; a timeout needs no shutdown; releasing a connection requires
that some Guard actually holds one (outstanding positive). -/
def PoolState.eventOk (s : PoolState) : PoolEvent → Bool
  | .acquireOk => !s.shutdown && decide (0 < s.idleCount)
  | .acquireThrow => s.shutdown
  | .tryAcquireOk => !s.shutdown && decide (0 < s.idleCount)
  | .tryAcquireTimeout => !s.shutdown
  | .tryAcquireThrow => s.shutdown
  | .releaseConn => decide (0 < s.outstanding)
  | .releaseNull => true

/-- State transition of one completed pool operation: a successful
acquisition pops the queue and increments outstanding; a release
decrements outstanding and pushes the queue; everything else leaves the
counts alone. -/
def PoolState.step (s : PoolState) : PoolEvent → PoolState
  | .acquireOk =>
    { s with idleCount := s.idleCount - 1, outstanding := s.outstanding + 1 }
  | .tryAcquireOk =>
    { s with idleCount := s.idleCount - 1, outstanding := s.outstanding + 1 }
  | .releaseConn =>
    { s with idleCount := s.idleCount + 1, outstanding := s.outstanding - 1 }
  | _ => s

/-- Run a trace of pool events. -/
def PoolState.run (s : PoolState) : List PoolEvent → PoolState
  | [] => s
  | e :: es => (s.step e).run es

/-- A trace is valid when every event can complete in the state it meets. -/
def PoolState.validTrace (s : PoolState) : List PoolEvent → Bool
  | [] => true
  | e :: es => s.eventOk e && (s.step e).validTrace es

/-- ConnectionPool::size. -/
def PoolState.size (s : PoolState) : Nat := s.totalConnections

/-- ConnectionPool::available. -/
def PoolState.available (s : PoolState) : Nat := s.idleCount

/-- ConnectionPool::inUse — computed as totalConnections_ minus the idle
queue length. -/
def PoolState.inUse (s : PoolState) : Nat := s.totalConnections - s.idleCount

/-- A ConnectionPool::Connection guard as its two owning fields:
whether pool_ is non-null, and the borrowed resource held by conn_
(none when conn_ is null). -/
structure Guard where
  pool : Bool
  conn : Option Nat
deriving DecidableEq, Repr

/-- The releases a guard performs right now if destroyed or assigned
over: one release of its resource when both conn_ and pool_ are non-null
(the destructor's and move-assignment's condition), else none. -/
def Guard.relNow (g : Guard) : List Nat :=
  match g.conn with
  | some r => if g.pool then [r] else []
  | none => []

/-- Guard lifetime events: destruction of guard i; move-construction of a
new guard from guard i; move-assignment of guard j into guard i. -/
inductive GuardOp where
  | destruct (i : Nat)
  | moveFrom (i : Nat)
  | moveAssign (i j : Nat)
deriving DecidableEq, Repr

/-- A configuration of live guards plus the log of releases made back to
the pool. -/
structure GuardConfig where
  guards : List Guard
  released : List Nat

/-- One guard lifetime event.  Destruction removes the guard, releasing
its resource if it holds one with a live pool pointer.  Move-construction
leaves the source with null pool_ and moved-out conn_ and creates the new
guard with the source's old fields.  Move-assignment (on distinct guards;
self-assignment is a guarded no-op) first releases the target's current
resource, then transfers the source's fields and nulls the source.
Events naming dead indices do nothing. -/
def GuardConfig.step (c : GuardConfig) : GuardOp → GuardConfig
  | .destruct i =>
    match c.guards[i]? with
    | none => c
    | some g => { guards := c.guards.eraseIdx i, released := c.released ++ g.relNow }
  | .moveFrom i =>
    match c.guards[i]? with
    | none => c
    | some g =>
      { guards := (c.guards.set i { pool := false, conn := none }) ++
          [{ pool := g.pool, conn := g.conn }]
        released := c.released }
  | .moveAssign i j =>
    if i = j then c
    else
      match c.guards[i]?, c.guards[j]? with
      | some t, some o =>
        { guards := (c.guards.set i { pool := o.pool, conn := o.conn }).set j
            { pool := false, conn := none }
          released := c.released ++ t.relNow }
      | _, _ => c

/-- Run a list of guard lifetime events. -/
def GuardConfig.run (c : GuardConfig) : List GuardOp → GuardConfig
  | [] => c
  | op :: ops => (c.step op).run ops

/-- Whether a guard currently holds resource r. -/
def holdsRes (r : Nat) (g : Guard) : Bool := decide (g.conn = some r)

/-- The worker closure of AsyncExecutor::query. -/
def AsyncExecutor.queryWorker (a : Analyzer) (sql : String) : ResultSet :=
  (a.query sql).1

/-- The worker closure of AsyncExecutor::execute. -/
def AsyncExecutor.executeWorker (a : Analyzer) (sql : String) : Bool :=
  (a.execute sql).1

/-- The worker closure of AsyncExecutor::count: the row count with
value_or(0) collapsing a failed count query to zero. -/
def AsyncExecutor.countWorker (a : Analyzer) (t : String) : Int :=
  (a.getRowCount t).getD 0

/-- The value observable from the Task handle returned by
AsyncExecutor::execute, after the worker produced its result and the
coroutine co_returned it. -/
def AsyncExecutor.executeTaskResult (a : Analyzer) (sql : String) : Option Bool :=
  taskPublished Bool (AsyncExecutor.executeWorker a sql)

/-- Whether an Except carries a success (used to phrase open outcomes). -/
def exceptIsOk {ε α : Type} : Except ε α → Bool
  | Except.ok _ => true
  | Except.error _ => false

/-- A concrete engine handle used to instantiate theorems: one table
called users with one integer primary-key column; the COUNT query over it
yields zero; SELECT 1 succeeds; every other statement fails to prepare;
BAD SQL fails to execute; the WAL pragma succeeds. -/
def dbA : Db :=
  { tables := ["users"]
    tableInfo := fun t =>
      if t = "users" then
        [{ name := "id", type := "INTEGER", notNull := true, primaryKey := true }]
      else []
    queryRes := fun sql =>
      if sql = "SELECT COUNT(*) as count FROM users" then
        some [[("count", ColumnValue.intVal 0)]]
      else if sql = "SELECT 1" then some [[("1", ColumnValue.intVal 1)]]
      else none
    errMsg := fun _ => "near error: syntax error"
    execOk := fun sql => sql != "BAD SQL"
    execErr := fun _ => "constraint failed"
    walOk := true }

/-- An Analyzer freshly opened on the concrete engine handle. -/
def aOpen : Analyzer :=
  { db := some dbA, lastError := "", schemaCache := [], isCacheInitialized := false
    walModeEnabled := false }

/-- An Analyzer whose cache already holds the users entry while the
cache-initialized flag is still down (the state a first-miss population
leaves behind after clearSchemaCache reset the flag, or before any
cacheAllSchemas ran). -/
def aCachedNoFlag : Analyzer :=
  { db := some dbA, lastError := "", schemaCache := [("users", fetchSchema dbA "users")]
    isCacheInitialized := false, walModeEnabled := false }

/-- A concrete stopped thread pool with two queued tasks, used to
instantiate the drain theorem. -/
def tpStopped : ThreadPool :=
  { tasks := [3, 4], executed := [9], stopRequested := true }

/-- A concrete open oracle whose third connection fails to open. -/
def mkThirdFails : Nat → Except String Db := fun i =>
  if i < 2 then Except.ok dbA else Except.error "unable to open database file"

/-- C6 counterexample: an Analyzer whose handle has been closed (here: the
open aOpen after close, the state a default-constructed or closed Resource
is in).  Its query fails — zero rows come back and the statement never
ran — yet the last-error string is left untouched at the empty string, so
nothing retrievable records the failure; execute likewise returns false
without recording anything.  This refutes the claim that every query or
execute failure records a retrievable last-error string. -/
theorem analyzer_closed_failure_records_nothing :
    (aOpen.close.query "SELECT 1").1 = [] ∧
    (aOpen.close.query "SELECT 1").2.getLastError = "" ∧
    (aOpen.close.query "SELECT 1").2.getLastError = aOpen.close.getLastError ∧
    (aOpen.close.execute "DELETE FROM users").1 = false ∧
    (aOpen.close.execute "DELETE FROM users").2.getLastError = "" := by
  refine ⟨rfl, rfl, rfl, rfl, rfl⟩

/-- C6 (amended): all Analyzer failure reporting goes through return
values plus the last-error string and nothing is thrown (every modelled
operation is a total function).  With an open handle, a query whose
preparation fails returns an empty result set and records the engine's
error message, and a failing execute returns false and records the error
message; a failing open returns false, records the message and leaves the
handle closed.  With a closed handle, query returns empty and execute
returns false with the whole state — in particular the last-error
string — left unchanged. -/
theorem analyzer_error_reporting (a : Analyzer) (d : Db) (sql : String)
    (hdb : a.db = some d) :
    (d.queryRes sql = none →
      (a.query sql).1 = [] ∧ (a.query sql).2.getLastError = d.errMsg sql) ∧
    (d.execOk sql = false →
      (a.execute sql).1 = false ∧ (a.execute sql).2.getLastError = d.execErr sql) ∧
    (∀ msg, (a.openDb (Except.error msg)).1 = false ∧
      (a.openDb (Except.error msg)).2.getLastError = msg ∧
      (a.openDb (Except.error msg)).2.isOpen = false) ∧
    (∀ a' : Analyzer, a'.db = none →
      (a'.query sql).1 = [] ∧ (a'.query sql).2 = a' ∧
      (a'.execute sql).1 = false ∧ (a'.execute sql).2 = a') := by
  refine ⟨?_, ?_, ?_, ?_⟩
  · intro hq
    simp [Analyzer.query, hdb, hq, Analyzer.getLastError]
  · intro he
    simp [Analyzer.execute, hdb, he, Analyzer.getLastError]
  · intro msg
    simp [Analyzer.openDb, Analyzer.close, Analyzer.getLastError, Analyzer.isOpen]
  · intro a' ha'
    simp [Analyzer.query, Analyzer.execute, ha']

/-- C6 witness: the amended theorem applied to the concrete open Analyzer
and a statement the engine rejects. -/
theorem analyzer_error_reporting_witness :
    (aOpen.query "BAD SQL").1 = [] ∧
    (aOpen.query "BAD SQL").2.getLastError = dbA.errMsg "BAD SQL" :=
  (analyzer_error_reporting aOpen dbA "BAD SQL" rfl).1 rfl

/-- C9: AsyncExecutor::count's worker computes value_or(0) over
Analyzer::getRowCount, so a failed row-count query (getRowCount none)
yields 0, the same value as counting an empty table; the deferred-result
handle carries no failure signal either — the promise's exception slot
stays unset since the worker returns normally.  A failed count is thus
indistinguishable from a zero count at the async surface. -/
theorem count_failure_collapses_to_zero (a a' : Analyzer) (t t' : String)
    (hfail : a.getRowCount t = none) (hempty : a'.getRowCount t' = some 0) :
    AsyncExecutor.countWorker a t = 0 ∧
    AsyncExecutor.countWorker a' t' = 0 ∧
    AsyncExecutor.countWorker a t = AsyncExecutor.countWorker a' t' ∧
    ((TaskPromise.fresh Int).returnValue (AsyncExecutor.countWorker a t)).exceptionSet
      = false := by
  refine ⟨?_, ?_, ?_, rfl⟩
  · simp [AsyncExecutor.countWorker, hfail]
  · simp [AsyncExecutor.countWorker, hempty]
  · simp [AsyncExecutor.countWorker, hfail, hempty]

/-- C9 witness: a closed Analyzer's count query fails while the open
Analyzer counts the empty users table; both worker results are 0. -/
theorem count_failure_collapses_to_zero_witness :
    AsyncExecutor.countWorker Analyzer.mkClosed "users" = 0 ∧
    AsyncExecutor.countWorker aOpen "users" = 0 ∧
    AsyncExecutor.countWorker Analyzer.mkClosed "users"
      = AsyncExecutor.countWorker aOpen "users" := by
  have h := count_failure_collapses_to_zero Analyzer.mkClosed aOpen "users" "users"
    (by rfl) (by rfl)
  exact ⟨h.1, h.2.1, h.2.2.1⟩

/-- C1: the worker's result is never published into the Task handle.  In
Task promise_type, return_value's parameter is itself named value_ and so
shadows the member value_: the body assigns the moved parameter back to
the parameter, leaving the promise member untouched by every return_value
call.  Concretely, the execute worker produces true (BEGIN TRANSACTION
succeeds on the open handle) yet the value readable from the returned
Task via get / await_resume is not that result but the never-written,
default-initialized member (modelled as none), for every operation and
every worker result. -/
theorem task_result_never_published :
    AsyncExecutor.executeWorker aOpen "BEGIN TRANSACTION" = true ∧
    AsyncExecutor.executeTaskResult aOpen "BEGIN TRANSACTION" = none ∧
    (∀ (T : Type) (p : TaskPromise T) (v : T), p.returnValue v = p) ∧
    (∀ (T : Type) (v : T), taskPublished T v = none) := by
  refine ⟨?_, rfl, fun T p v => rfl, fun T v => rfl⟩
  · decide

/-- Consistency of a schema cache with the engine: every cached entry is
exactly what PRAGMA table_info reports for its table. -/
def cacheConsistent (d : Db) (c : List (String × TableSchema)) : Prop :=
  ∀ t sch, assocLookup c t = some sch → sch = fetchSchema d t

theorem assocLookup_assocInsert {α : Type} (c : List (String × α)) (t : String)
    (v : α) (t' : String) :
    assocLookup (assocInsert c t v) t' =
      if t' = t then some v else assocLookup c t' := by
  induction c with
  | nil =>
    by_cases h : t' = t
    · simp [assocInsert, assocLookup, h]
    · simp [assocInsert, assocLookup, h, Ne.symm h]
  | cons head rest ih =>
    obtain ⟨k, w⟩ := head
    by_cases hk : k = t
    · subst hk
      by_cases h : t' = k
      · simp [assocInsert, assocLookup, h]
      · simp [assocInsert, assocLookup, h, Ne.symm h]
    · by_cases h : k = t'
      · subst h
        simp [assocInsert, assocLookup, hk, Ne.symm hk]
      · simp [assocInsert, assocLookup, hk, h, ih]

theorem cacheConsistent_insert (d : Db) (c : List (String × TableSchema))
    (t : String) (h : cacheConsistent d c) :
    cacheConsistent d (assocInsert c t (fetchSchema d t)) := by
  intro t' sch hl
  rw [assocLookup_assocInsert] at hl
  by_cases ht : t' = t
  · subst ht
    rw [if_pos rfl] at hl
    exact (Option.some.inj hl).symm
  · rw [if_neg ht] at hl
    exact h t' sch hl

theorem cacheConsistent_foldl (d : Db) (ts : List String) :
    ∀ c, cacheConsistent d c →
      cacheConsistent d
        (ts.foldl (fun c t => assocInsert c t (fetchSchema d t)) c) := by
  induction ts with
  | nil => intro c h; simpa using h
  | cons t ts ih =>
    intro c h
    simpa [List.foldl] using ih _ (cacheConsistent_insert d c t h)

theorem gts_hit (a : Analyzer) (t : String) (sch : TableSchema)
    (hinit : a.isCacheInitialized = true)
    (hl : assocLookup a.schemaCache t = some sch) :
    a.getTableSchema t = { schema := sch, state := a, dbQueried := false } := by
  unfold Analyzer.getTableSchema
  rw [hinit]
  simp [hl]

theorem gts_missFetch (a : Analyzer) (t : String)
    (h : a.isCacheInitialized = false ∨ assocLookup a.schemaCache t = none) :
    a.getTableSchema t = a.gtsFetch t := by
  unfold Analyzer.getTableSchema
  rcases h with h | h
  · rw [h]
    simp
  · cases hinit : a.isCacheInitialized with
    | false => simp [hinit]
    | true => simp [hinit, h]

theorem gtsFetch_spec (a : Analyzer) (d : Db) (t : String) (hdb : a.db = some d) :
    a.gtsFetch t =
      { schema := fetchSchema d t
        state := { a with schemaCache := assocInsert a.schemaCache t (fetchSchema d t) }
        dbQueried := true } := by
  unfold Analyzer.gtsFetch
  rw [hdb]

theorem getTableSchema_spec (a : Analyzer) (d : Db) (t : String)
    (hdb : a.db = some d) (hc : cacheConsistent d a.schemaCache) :
    (a.getTableSchema t).schema = fetchSchema d t ∧
    (a.getTableSchema t).state.db = some d ∧
    (a.getTableSchema t).state.isCacheInitialized = a.isCacheInitialized ∧
    cacheConsistent d (a.getTableSchema t).state.schemaCache := by
  cases hinit : a.isCacheInitialized with
  | false =>
    rw [gts_missFetch a t (Or.inl hinit), gtsFetch_spec a d t hdb]
    exact ⟨rfl, hdb, hinit, cacheConsistent_insert d a.schemaCache t hc⟩
  | true =>
    cases hl : assocLookup a.schemaCache t with
    | none =>
      rw [gts_missFetch a t (Or.inr hl), gtsFetch_spec a d t hdb]
      exact ⟨rfl, hdb, hinit, cacheConsistent_insert d a.schemaCache t hc⟩
    | some sch =>
      rw [gts_hit a t sch hinit hl]
      exact ⟨hc t sch hl, hdb, hinit, hc⟩

theorem cacheAllSchemas_spec (a : Analyzer) (d : Db) (hdb : a.db = some d)
    (hc : cacheConsistent d a.schemaCache) :
    a.cacheAllSchemas.db = some d ∧
    a.cacheAllSchemas.isCacheInitialized = true ∧
    cacheConsistent d a.cacheAllSchemas.schemaCache := by
  simp [Analyzer.cacheAllSchemas, hdb]
  exact cacheConsistent_foldl d d.tables a.schemaCache hc

/-- C7: with the engine schema unchanged, getTableSchema(t) is stable:
its result is always PRAGMA table_info(t)'s contents, so a repeated call
(after the first-miss population, or after cacheAllSchemas) returns
identical contents, and a cache hit returns exactly the schema the
populating call stored.  The hypothesis is that every already-cached
entry matches the engine (true of the empty cache, of first-miss
populations, and of cacheAllSchemas, as the other conjuncts show). -/
theorem getTableSchema_stable (a : Analyzer) (d : Db) (t : String)
    (hdb : a.db = some d) (hc : cacheConsistent d a.schemaCache) :
    (a.getTableSchema t).schema = fetchSchema d t ∧
    ((a.getTableSchema t).state.getTableSchema t).schema
      = (a.getTableSchema t).schema ∧
    (a.cacheAllSchemas.getTableSchema t).schema = fetchSchema d t ∧
    (∀ sch, assocLookup a.cacheAllSchemas.schemaCache t = some sch →
      (a.cacheAllSchemas.getTableSchema t).schema = sch) ∧
    cacheConsistent d (a.getTableSchema t).state.schemaCache := by
  obtain ⟨h1, h2, _, h4⟩ := getTableSchema_spec a d t hdb hc
  obtain ⟨g1, _, g3⟩ := cacheAllSchemas_spec a d hdb hc
  obtain ⟨k1, _, _, _⟩ := getTableSchema_spec (a.getTableSchema t).state d t h2 h4
  obtain ⟨m1, _, _, _⟩ := getTableSchema_spec a.cacheAllSchemas d t g1 g3
  refine ⟨h1, by rw [k1, h1], m1, ?_, h4⟩
  intro sch hsch
  rw [m1, g3 t sch hsch]

/-- C7 witness: on the concrete open Analyzer with its empty (hence
consistent) cache, getTableSchema for the users table returns the
engine's schema, twice in a row, also after cacheAllSchemas. -/
theorem getTableSchema_stable_witness :
    (aOpen.getTableSchema "users").schema = fetchSchema dbA "users" ∧
    ((aOpen.getTableSchema "users").state.getTableSchema "users").schema
      = (aOpen.getTableSchema "users").schema ∧
    (aOpen.cacheAllSchemas.getTableSchema "users").schema
      = fetchSchema dbA "users" := by
  have h := getTableSchema_stable aOpen dbA "users" rfl
    (by intro t sch hl; simp [aOpen, assocLookup] at hl)
  exact ⟨h.1, h.2.1, h.2.2.1⟩

/-- C8: the cache-initialized flag rises only through cacheAllSchemas and
falls only through clearSchemaCache — every other Analyzer operation,
including the first-miss population inside getTableSchema, leaves it
unchanged — and while the flag is down, getTableSchema queries the
engine's metadata (PRAGMA table_info runs) on every call on an open
handle, even when the requested table's entry already sits in the cache
map. -/
theorem schema_flag_transitions (a : Analyzer) (op : AnalyzerOp) (t : String)
    (d : Db) :
    ((a.stepOp op).isCacheInitialized = true →
      a.isCacheInitialized = true ∨ op.isCacheAll = true) ∧
    ((a.stepOp op).isCacheInitialized = false →
      a.isCacheInitialized = false ∨ op.isClear = true) ∧
    ((a.getTableSchema t).state.isCacheInitialized = a.isCacheInitialized) ∧
    (a.isCacheInitialized = false → a.db = some d →
      (a.getTableSchema t).dbQueried = true) := by
  have hfetch : ∀ (b : Analyzer) (u : String),
      (b.gtsFetch u).state.isCacheInitialized = b.isCacheInitialized := by
    intro b u
    unfold Analyzer.gtsFetch
    cases hb : b.db <;> simp [hb]
  have hgts : ∀ (b : Analyzer) (u : String),
      (b.getTableSchema u).state.isCacheInitialized = b.isCacheInitialized := by
    intro b u
    cases hinit : b.isCacheInitialized with
    | false =>
      rw [gts_missFetch b u (Or.inl hinit), hfetch]
      exact hinit
    | true =>
      cases hl : assocLookup b.schemaCache u with
      | none =>
        rw [gts_missFetch b u (Or.inr hl), hfetch]
        exact hinit
      | some sch =>
        rw [gts_hit b u sch hinit hl]
        exact hinit
  refine ⟨?_, ?_, hgts a t, ?_⟩
  · cases op with
    | doOpen res =>
      cases res <;>
        simp [Analyzer.stepOp, Analyzer.openDb, Analyzer.close, AnalyzerOp.isCacheAll]
    | doClose => simp [Analyzer.stepOp, Analyzer.close, AnalyzerOp.isCacheAll]
    | doQuery sql =>
      cases hb : a.db with
      | none => simp [Analyzer.stepOp, Analyzer.query, hb, AnalyzerOp.isCacheAll]
      | some d' =>
        cases hq : d'.queryRes sql <;>
          simp [Analyzer.stepOp, Analyzer.query, hb, hq, AnalyzerOp.isCacheAll]
    | doExecute sql =>
      cases hb : a.db with
      | none => simp [Analyzer.stepOp, Analyzer.execute, hb, AnalyzerOp.isCacheAll]
      | some d' =>
        by_cases he : d'.execOk sql <;>
          simp [Analyzer.stepOp, Analyzer.execute, hb, he, AnalyzerOp.isCacheAll]
    | doBeginTransaction =>
      cases hb : a.db with
      | none =>
        simp [Analyzer.stepOp, Analyzer.beginTransaction, Analyzer.execute, hb,
          AnalyzerOp.isCacheAll]
      | some d' =>
        by_cases he : d'.execOk "BEGIN TRANSACTION" <;>
          simp [Analyzer.stepOp, Analyzer.beginTransaction, Analyzer.execute, hb, he,
            AnalyzerOp.isCacheAll]
    | doCommit =>
      cases hb : a.db with
      | none =>
        simp [Analyzer.stepOp, Analyzer.commit, Analyzer.execute, hb,
          AnalyzerOp.isCacheAll]
      | some d' =>
        by_cases he : d'.execOk "COMMIT" <;>
          simp [Analyzer.stepOp, Analyzer.commit, Analyzer.execute, hb, he,
            AnalyzerOp.isCacheAll]
    | doRollback =>
      cases hb : a.db with
      | none =>
        simp [Analyzer.stepOp, Analyzer.rollback, Analyzer.execute, hb,
          AnalyzerOp.isCacheAll]
      | some d' =>
        by_cases he : d'.execOk "ROLLBACK" <;>
          simp [Analyzer.stepOp, Analyzer.rollback, Analyzer.execute, hb, he,
            AnalyzerOp.isCacheAll]
    | doGetTableSchema u =>
      intro h
      left
      rw [← hgts a u]
      exact h
    | doCacheAllSchemas => simp [AnalyzerOp.isCacheAll]
    | doClearSchemaCache =>
      simp [Analyzer.stepOp, Analyzer.clearSchemaCache, AnalyzerOp.isCacheAll]
    | doEnableWAL =>
      cases hb : a.db with
      | none => simp [Analyzer.stepOp, Analyzer.enableWALMode, hb, AnalyzerOp.isCacheAll]
      | some d' =>
        by_cases hw : d'.walOk <;>
          simp [Analyzer.stepOp, Analyzer.enableWALMode, hb, hw, AnalyzerOp.isCacheAll]
  · cases op with
    | doOpen res =>
      cases res <;>
        simp [Analyzer.stepOp, Analyzer.openDb, Analyzer.close, AnalyzerOp.isClear]
    | doClose => simp [Analyzer.stepOp, Analyzer.close, AnalyzerOp.isClear]
    | doQuery sql =>
      cases hb : a.db with
      | none => simp [Analyzer.stepOp, Analyzer.query, hb, AnalyzerOp.isClear]
      | some d' =>
        cases hq : d'.queryRes sql <;>
          simp [Analyzer.stepOp, Analyzer.query, hb, hq, AnalyzerOp.isClear]
    | doExecute sql =>
      cases hb : a.db with
      | none => simp [Analyzer.stepOp, Analyzer.execute, hb, AnalyzerOp.isClear]
      | some d' =>
        by_cases he : d'.execOk sql <;>
          simp [Analyzer.stepOp, Analyzer.execute, hb, he, AnalyzerOp.isClear]
    | doBeginTransaction =>
      cases hb : a.db with
      | none =>
        simp [Analyzer.stepOp, Analyzer.beginTransaction, Analyzer.execute, hb,
          AnalyzerOp.isClear]
      | some d' =>
        by_cases he : d'.execOk "BEGIN TRANSACTION" <;>
          simp [Analyzer.stepOp, Analyzer.beginTransaction, Analyzer.execute, hb, he,
            AnalyzerOp.isClear]
    | doCommit =>
      cases hb : a.db with
      | none =>
        simp [Analyzer.stepOp, Analyzer.commit, Analyzer.execute, hb, AnalyzerOp.isClear]
      | some d' =>
        by_cases he : d'.execOk "COMMIT" <;>
          simp [Analyzer.stepOp, Analyzer.commit, Analyzer.execute, hb, he,
            AnalyzerOp.isClear]
    | doRollback =>
      cases hb : a.db with
      | none =>
        simp [Analyzer.stepOp, Analyzer.rollback, Analyzer.execute, hb,
          AnalyzerOp.isClear]
      | some d' =>
        by_cases he : d'.execOk "ROLLBACK" <;>
          simp [Analyzer.stepOp, Analyzer.rollback, Analyzer.execute, hb, he,
            AnalyzerOp.isClear]
    | doGetTableSchema u =>
      intro h
      left
      rw [← hgts a u]
      exact h
    | doCacheAllSchemas =>
      cases hb : a.db with
      | none => simp [Analyzer.stepOp, Analyzer.cacheAllSchemas, hb, AnalyzerOp.isClear]
      | some d' => simp [Analyzer.stepOp, Analyzer.cacheAllSchemas, hb, AnalyzerOp.isClear]
    | doClearSchemaCache => simp [AnalyzerOp.isClear]
    | doEnableWAL =>
      cases hb : a.db with
      | none => simp [Analyzer.stepOp, Analyzer.enableWALMode, hb, AnalyzerOp.isClear]
      | some d' =>
        by_cases hw : d'.walOk <;>
          simp [Analyzer.stepOp, Analyzer.enableWALMode, hb, hw, AnalyzerOp.isClear]
  · intro hflag hdb
    rw [gts_missFetch a t (Or.inl hflag), gtsFetch_spec a d t hdb]

/-- C8 witness: on the Analyzer whose cache already holds the users entry
but whose flag is down, getTableSchema still runs PRAGMA table_info
against the engine; and clearSchemaCache indeed reports a cacheAll-free
flag rise as impossible for this concrete step. -/
theorem schema_flag_transitions_witness :
    (aCachedNoFlag.getTableSchema "users").dbQueried = true ∧
    assocLookup aCachedNoFlag.schemaCache "users" = some (fetchSchema dbA "users") := by
  refine ⟨?_, by rfl⟩
  exact (schema_flag_transitions aCachedNoFlag AnalyzerOp.doClearSchemaCache
    "users" dbA).2.2.2 rfl rfl

/-- The pool counting invariant: the fixed total equals idle plus
outstanding. -/
def PoolInv (n : Nat) (s : PoolState) : Prop :=
  s.totalConnections = n ∧ s.idleCount + s.outstanding = n

theorem poolStep_preserves (n : Nat) (s : PoolState) (e : PoolEvent)
    (hv : s.eventOk e = true) (h : PoolInv n s) : PoolInv n (s.step e) := by
  obtain ⟨h1, h2⟩ := h
  cases e <;>
    simp only [PoolState.eventOk, decide_eq_true_eq, Bool.and_eq_true,
      Bool.not_eq_true'] at hv <;>
    constructor <;>
    dsimp only [PoolState.step] <;>
    omega

theorem poolRun_preserves (n : Nat) :
    ∀ (tr : List PoolEvent) (s : PoolState),
      s.validTrace tr = true → PoolInv n s → PoolInv n (s.run tr) := by
  intro tr
  induction tr with
  | nil => intro s _ h; exact h
  | cons e es ih =>
    intro s hv h
    rw [PoolState.validTrace] at hv
    obtain ⟨hv1, hv2⟩ := Bool.and_eq_true_iff.mp hv
    exact ih (s.step e) hv2 (poolStep_preserves n s e hv1 h)

/-- C3: over every valid operation sequence on a pool of fixed total n
(successful acquisitions pop the idle queue and bump outstanding,
releases of borrowed connections push it back and drop outstanding,
shutdown-throws, timeouts and null releases change nothing), the state
reached keeps total = idle + outstanding; inUse — computed as total minus
the idle queue length — therefore equals outstanding, never exceeds n and
never underflows (idle never exceeds the total it is subtracted from). -/
theorem pool_counts_invariant (n : Nat) (tr : List PoolEvent)
    (hv : (PoolState.init n).validTrace tr = true) :
    ((PoolState.init n).run tr).totalConnections = n ∧
    ((PoolState.init n).run tr).available + ((PoolState.init n).run tr).outstanding
      = n ∧
    ((PoolState.init n).run tr).inUse = ((PoolState.init n).run tr).outstanding ∧
    ((PoolState.init n).run tr).inUse ≤ n ∧
    ((PoolState.init n).run tr).available ≤ n := by
  have h := poolRun_preserves n tr (PoolState.init n) hv ⟨rfl, by simp [PoolState.init]⟩
  obtain ⟨h1, h2⟩ := h
  unfold PoolState.inUse PoolState.available
  refine ⟨h1, h2, by omega, by omega, by omega⟩

/-- C3 witness: a concrete valid trace on a pool of two connections —
acquire, tryAcquire, release, acquire — ends with both connections out. -/
theorem pool_counts_invariant_witness :
    ((PoolState.init 2).run
        [PoolEvent.acquireOk, PoolEvent.tryAcquireOk, PoolEvent.releaseConn,
          PoolEvent.acquireOk]).totalConnections = 2 ∧
    ((PoolState.init 2).run
        [PoolEvent.acquireOk, PoolEvent.tryAcquireOk, PoolEvent.releaseConn,
          PoolEvent.acquireOk]).inUse
      = ((PoolState.init 2).run
        [PoolEvent.acquireOk, PoolEvent.tryAcquireOk, PoolEvent.releaseConn,
          PoolEvent.acquireOk]).outstanding := by
  have h := pool_counts_invariant 2
    [PoolEvent.acquireOk, PoolEvent.tryAcquireOk, PoolEvent.releaseConn,
      PoolEvent.acquireOk] (by decide)
  exact ⟨h.1, h.2.2.1⟩

theorem threadPool_drainFrom_spec :
    ∀ (q executed : List Nat) (stopR : Bool),
      (ThreadPool.drainFrom executed stopR q).executed = executed ++ q ∧
      (ThreadPool.drainFrom executed stopR q).tasks = [] ∧
      (ThreadPool.drainFrom executed stopR q).stopRequested = stopR := by
  intro q
  induction q with
  | nil => intro executed stopR; simp [ThreadPool.drainFrom]
  | cons t ts ih =>
    intro executed stopR
    have := ih (executed ++ [t]) stopR
    simpa [ThreadPool.drainFrom] using this

theorem threadPool_drain_spec (tp : ThreadPool) :
    tp.drain.executed = tp.executed ++ tp.tasks ∧ tp.drain.tasks = [] ∧
    tp.drain.stopRequested = tp.stopRequested :=
  threadPool_drainFrom_spec tp.tasks tp.executed tp.stopRequested

theorem threadPool_runWorker_drain :
    ∀ (q : List Nat) (tp : ThreadPool), tp.stopRequested = true → tp.tasks = q →
      tp.runWorker (q.length + 1) = tp.drain := by
  intro q
  induction q with
  | nil =>
    intro tp hs hq
    obtain ⟨tks, exe, st⟩ := tp
    simp only at hs hq
    subst hs
    subst hq
    unfold ThreadPool.runWorker ThreadPool.workerStep ThreadPool.drain
      ThreadPool.drainFrom
    simp
  | cons t ts ih =>
    intro tp hs hq
    unfold ThreadPool.runWorker ThreadPool.workerStep
    simp only [hq, hs, List.isEmpty_cons, Bool.and_false]
    have hrec := ih
      { tasks := ts, executed := tp.executed ++ [t], stopRequested := tp.stopRequested }
      (by simpa using hs) rfl
    have hdrain : tp.drain =
        ThreadPool.drain
          { tasks := ts, executed := tp.executed ++ [t]
            stopRequested := tp.stopRequested } := by
      unfold ThreadPool.drain
      simp [hq, ThreadPool.drainFrom]
    rw [hdrain]
    simpa [List.length_cons, hs] using hrec

/-- C4: once the stop flag is up, the worker loop drains the queue — the
loop as iterated by runWorker executes every task still queued, in FIFO
order, reaching the empty queue, after which the next iteration exits the
thread (workerStep = none) — while every enqueue attempted after stop
throws and puts nothing in the queue.  Tasks enqueued strictly before
stop are exactly those in the queue when stop is raised, so all of them
run before the worker exits. -/
theorem threadPool_stop_drains_then_exits (tp : ThreadPool) (t : Nat)
    (hstop : tp.stopRequested = true) :
    tp.enqueue t = Except.error "ThreadPool is stopped" ∧
    tp.drain.executed = tp.executed ++ tp.tasks ∧
    tp.drain.tasks = [] ∧
    tp.runWorker (tp.tasks.length + 1) = tp.drain ∧
    ThreadPool.workerStep tp.drain = none := by
  obtain ⟨hd1, hd2, hd3⟩ := threadPool_drain_spec tp
  refine ⟨?_, hd1, hd2, threadPool_runWorker_drain tp.tasks tp hstop rfl, ?_⟩
  · simp [ThreadPool.enqueue, hstop]
  · unfold ThreadPool.workerStep
    rw [hd3, hstop, hd2]
    simp

/-- C4 witness: the concrete stopped pool with two queued tasks rejects a
new enqueue, runs both queued tasks in order, and exits. -/
theorem threadPool_stop_drains_then_exits_witness :
    tpStopped.enqueue 5 = Except.error "ThreadPool is stopped" ∧
    tpStopped.drain.executed = [9] ++ [3, 4] ∧
    tpStopped.drain.tasks = [] ∧
    tpStopped.runWorker ([3, 4].length + 1) = tpStopped.drain ∧
    ThreadPool.workerStep tpStopped.drain = none :=
  threadPool_stop_drains_then_exits tpStopped 5 rfl

theorem openDb_isOpen (a : Analyzer) (res : Except String Db) :
    (a.openDb res).2.isOpen = exceptIsOk res := by
  cases res <;> simp [Analyzer.openDb, Analyzer.close, Analyzer.isOpen, exceptIsOk]

theorem ctorLoop_fails :
    ∀ (k : Nat) (mk : Nat → Except String Db) (wal : Bool) (i rem : Nat)
      (acc : List Analyzer),
      k < rem → (∀ j, j < k → exceptIsOk (mk (i + j)) = true) →
      exceptIsOk (mk (i + k)) = false →
      ∃ msg, ctorLoop mk wal i rem acc =
        Except.error (PoolCtorError.runtimeError msg) := by
  intro k
  induction k with
  | zero =>
    intro mk wal i rem acc hk _ hfail
    cases rem with
    | zero => omega
    | succ r =>
      unfold ctorLoop
      have hopen : (Analyzer.mkClosed.openDb (mk i)).2.isOpen = false := by
        rw [openDb_isOpen]
        simpa using hfail
      simp only [hopen, Bool.false_eq_true, if_false]
      exact ⟨_, rfl⟩
  | succ k ih =>
    intro mk wal i rem acc hk hpre hfail
    cases rem with
    | zero => omega
    | succ r =>
      unfold ctorLoop
      have hopen : (Analyzer.mkClosed.openDb (mk i)).2.isOpen = true := by
        rw [openDb_isOpen]
        simpa using hpre 0 (by omega)
      simp only [hopen, if_true]
      refine ih mk wal (i + 1) r _ (by omega) ?_ ?_
      · intro j hj
        have h2 := hpre (j + 1) (by omega)
        rw [show i + (j + 1) = i + 1 + j by omega] at h2
        exact h2
      · rw [show i + 1 + k = i + (k + 1) by omega]
        exact hfail

/-- C2: if construction of a pool of size N meets a failing open at some
index (all earlier opens succeeding), the constructor as a whole fails
with runtime_error, and no Analyzer — hence no open engine handle —
survives the attempt: the throw unwinds the partially filled queue and
every already-opened handle is closed by its owner's destructor.
Construction is all-or-nothing. -/
theorem pool_ctor_all_or_nothing (mk : Nat → Except String Db) (wal : Bool)
    (N k : Nat) (hk : k < N)
    (hpre : ∀ j, j < k → exceptIsOk (mk j) = true)
    (hfail : exceptIsOk (mk k) = false) :
    (∃ msg, (ConnectionPool.construct mk N wal).result =
      Except.error (PoolCtorError.runtimeError msg)) ∧
    (ConnectionPool.construct mk N wal).survivors = [] ∧
    (ConnectionPool.construct mk N wal).openHandles = 0 := by
  have hN : ¬N = 0 := by omega
  obtain ⟨msg, hloop⟩ := ctorLoop_fails k mk wal 0 N []
    hk (by simpa using hpre) (by simpa using hfail)
  unfold ConnectionPool.construct
  rw [if_neg hN, hloop]
  exact ⟨⟨msg, rfl⟩, rfl, rfl⟩

/-- C2 witness: with the oracle whose third open fails, constructing a
pool of three reports runtime_error and leaves zero open handles. -/
theorem pool_ctor_all_or_nothing_witness :
    (∃ msg, (ConnectionPool.construct mkThirdFails 3 false).result =
      Except.error (PoolCtorError.runtimeError msg)) ∧
    (ConnectionPool.construct mkThirdFails 3 false).survivors = [] ∧
    (ConnectionPool.construct mkThirdFails 3 false).openHandles = 0 :=
  pool_ctor_all_or_nothing mkThirdFails false 3 2 (by omega)
    (by
      intro j hj
      interval_cases j <;> rfl)
    rfl

/-- C10: constructing a ConnectionPool with poolSize zero throws
invalid_argument with the source's message, leaves no pool state behind
(no Analyzer survives), and does so before opening any Resource: the
outcome does not depend on the open oracle at all. -/
theorem pool_ctor_rejects_zero_size (mk : Nat → Except String Db) (wal : Bool) :
    (ConnectionPool.construct mk 0 wal).result =
      Except.error
        (PoolCtorError.invalidArgument "Connection pool size must be greater than 0") ∧
    (ConnectionPool.construct mk 0 wal).survivors = [] ∧
    (ConnectionPool.construct mk 0 wal).openHandles = 0 ∧
    ConnectionPool.construct mk 0 wal =
      ConnectionPool.construct (fun _ => Except.error "never consulted") 0 wal :=
  ⟨rfl, rfl, rfl, rfl⟩

theorem countP_set_eq {α : Type} (p : α → Bool) :
    ∀ (l : List α) (i : Nat) (g gOld : α), l[i]? = some gOld →
      (l.set i g).countP p + (if p gOld then 1 else 0) =
        l.countP p + (if p g then 1 else 0) := by
  intro l
  induction l with
  | nil => intro i g gOld h; simp at h
  | cons x xs ih =>
    intro i g gOld h
    cases i with
    | zero =>
      simp at h
      subst h
      simp [List.set, List.countP_cons]
      omega
    | succ n =>
      simp at h
      have := ih n g gOld h
      simp [List.set, List.countP_cons]
      omega

theorem countP_eraseIdx_eq {α : Type} (p : α → Bool) :
    ∀ (l : List α) (i : Nat) (gOld : α), l[i]? = some gOld →
      (l.eraseIdx i).countP p + (if p gOld then 1 else 0) = l.countP p := by
  intro l
  induction l with
  | nil => intro i gOld h; simp at h
  | cons x xs ih =>
    intro i gOld h
    cases i with
    | zero =>
      simp at h
      subst h
      simp [List.eraseIdx, List.countP_cons]
    | succ n =>
      simp at h
      have := ih n gOld h
      simp [List.eraseIdx, List.countP_cons]
      omega

theorem mem_set_cases {α : Type} :
    ∀ (l : List α) (i : Nat) (g a : α), a ∈ l.set i g → a ∈ l ∨ a = g := by
  intro l
  induction l with
  | nil => intro i g a h; simp [List.set] at h
  | cons x xs ih =>
    intro i g a h
    cases i with
    | zero =>
      simp [List.set] at h
      rcases h with h | h
      · right; exact h
      · left; simp [h]
    | succ n =>
      simp [List.set] at h
      rcases h with h | h
      · left; simp [h]
      · rcases ih n g a h with h2 | h2
        · left; simp [h2]
        · right; exact h2

theorem mem_eraseIdx_mem {α : Type} :
    ∀ (l : List α) (i : Nat) (a : α), a ∈ l.eraseIdx i → a ∈ l := by
  intro l
  induction l with
  | nil => intro i a h; simp [List.eraseIdx] at h
  | cons x xs ih =>
    intro i a h
    cases i with
    | zero =>
      simp [List.eraseIdx] at h
      simp [h]
    | succ n =>
      simp [List.eraseIdx] at h
      rcases h with h | h
      · simp [h]
      · simp [ih n a h]

theorem getElem?_mem_list {α : Type} :
    ∀ (l : List α) (i : Nat) (a : α), l[i]? = some a → a ∈ l := by
  intro l
  induction l with
  | nil => intro i a h; simp at h
  | cons x xs ih =>
    intro i a h
    cases i with
    | zero => simp at h; simp [h]
    | succ n => simp at h; simp [ih n a h]

theorem getElem?_set_ne_idx {α : Type} :
    ∀ (l : List α) (i j : Nat) (g : α), i ≠ j → (l.set i g)[j]? = l[j]? := by
  intro l
  induction l with
  | nil => intro i j g _; simp [List.set]
  | cons x xs ih =>
    intro i j g hne
    cases i with
    | zero =>
      cases j with
      | zero => exact absurd rfl hne
      | succ m => simp [List.set]
    | succ n =>
      cases j with
      | zero => simp [List.set]
      | succ m =>
        simp [List.set]
        exact ih n m g (by omega)

theorem relNow_count (r : Nat) (g : Guard) (hp : g.conn ≠ none → g.pool = true) :
    (g.relNow).count r = if holdsRes r g then 1 else 0 := by
  cases hc : g.conn with
  | none => simp [Guard.relNow, holdsRes, hc]
  | some r' =>
    have hpool : g.pool = true := hp (by simp [hc])
    by_cases h : r' = r
    · subst h
      simp [Guard.relNow, holdsRes, hc, hpool, List.count_cons]
    · simp [Guard.relNow, holdsRes, hc, hpool, h, List.count_cons,
        List.count_nil]

/-- The release-accounting invariant for resource r: the number of live
guards holding r plus the number of releases of r logged so far is
exactly one, and every live guard that holds any resource still has its
pool pointer. -/
def GuardInv (r : Nat) (c : GuardConfig) : Prop :=
  c.guards.countP (holdsRes r) + c.released.count r = 1 ∧
  ∀ g ∈ c.guards, g.conn ≠ none → g.pool = true

theorem guard_step_inv (r : Nat) (c : GuardConfig) (op : GuardOp)
    (h : GuardInv r c) : GuardInv r (c.step op) := by
  obtain ⟨hcount, hpool⟩ := h
  cases op with
  | destruct i =>
    cases hg : c.guards[i]? with
    | none => exact ⟨by simpa [GuardConfig.step, hg] using hcount,
        by simpa [GuardConfig.step, hg] using hpool⟩
    | some g =>
      have hmem := getElem?_mem_list c.guards i g hg
      have herase := countP_eraseIdx_eq (holdsRes r) c.guards i g hg
      have hrel := relNow_count r g (hpool g hmem)
      constructor
      · simp only [GuardConfig.step, hg, List.count_append, hrel]
        omega
      · intro g' hg' hconn
        simp only [GuardConfig.step, hg] at hg'
        exact hpool g' (mem_eraseIdx_mem c.guards i g' hg') hconn
  | moveFrom i =>
    cases hg : c.guards[i]? with
    | none => exact ⟨by simpa [GuardConfig.step, hg] using hcount,
        by simpa [GuardConfig.step, hg] using hpool⟩
    | some g =>
      have hmem := getElem?_mem_list c.guards i g hg
      have hset := countP_set_eq (holdsRes r) c.guards i
        { pool := false, conn := none } g hg
      constructor
      · simp only [GuardConfig.step, hg, List.countP_append]
        have hnew : (if holdsRes r { pool := g.pool, conn := g.conn } then 1 else 0)
            = (if holdsRes r g then 1 else 0) := by
          simp [holdsRes]
        have hold : (if holdsRes r { pool := false, conn := (none : Option Nat) }
            then 1 else 0) = 0 := by
          simp [holdsRes]
        simp only [List.countP_cons, List.countP_nil]
        have : (List.countP (holdsRes r) [{ pool := g.pool, conn := g.conn }]) =
            if holdsRes r g then 1 else 0 := by
          simp [List.countP_cons, holdsRes]
        rw [List.countP] at this
        omega
      · intro g' hg' hconn
        simp only [GuardConfig.step, hg, List.mem_append] at hg'
        rcases hg' with hg' | hg'
        · rcases mem_set_cases c.guards i _ g' hg' with h2 | h2
          · exact hpool g' h2 hconn
          · subst h2; simp at hconn
        · simp at hg'
          subst hg'
          simp only at hconn ⊢
          exact hpool g hmem hconn
  | moveAssign i j =>
    by_cases hij : i = j
    · exact ⟨by simpa [GuardConfig.step, hij] using hcount,
        by simpa [GuardConfig.step, hij] using hpool⟩
    · cases hgi : c.guards[i]? with
      | none => exact ⟨by simpa [GuardConfig.step, hij, hgi] using hcount,
          by simpa [GuardConfig.step, hij, hgi] using hpool⟩
      | some t =>
        cases hgj : c.guards[j]? with
        | none => exact ⟨by simpa [GuardConfig.step, hij, hgi, hgj] using hcount,
            by simpa [GuardConfig.step, hij, hgi, hgj] using hpool⟩
        | some o =>
          have hmemt := getElem?_mem_list c.guards i t hgi
          have hmemo := getElem?_mem_list c.guards j o hgj
          have hset1 := countP_set_eq (holdsRes r) c.guards i
            { pool := o.pool, conn := o.conn } t hgi
          have hgetj : (c.guards.set i { pool := o.pool, conn := o.conn })[j]?
              = some o := by
            rw [getElem?_set_ne_idx c.guards i j _ hij]
            exact hgj
          have hset2 := countP_set_eq (holdsRes r)
            (c.guards.set i { pool := o.pool, conn := o.conn }) j
            { pool := false, conn := none } o hgetj
          have hrel := relNow_count r t (hpool t hmemt)
          have hoeq : (if holdsRes r { pool := o.pool, conn := o.conn } then 1 else 0)
              = (if holdsRes r o then 1 else 0) := by
            simp [holdsRes]
          have hnone : (if holdsRes r { pool := false, conn := (none : Option Nat) }
              then 1 else 0) = 0 := by
            simp [holdsRes]
          constructor
          · simp only [GuardConfig.step, if_neg hij, hgi, hgj,
              List.count_append, hrel]
            omega
          · intro g' hg' hconn
            simp only [GuardConfig.step, if_neg hij, hgi, hgj] at hg'
            rcases mem_set_cases _ j _ g' hg' with h2 | h2
            · rcases mem_set_cases c.guards i _ g' h2 with h3 | h3
              · exact hpool g' h3 hconn
              · subst h3
                simp only at hconn ⊢
                exact hpool o hmemo hconn
            · subst h2; simp at hconn

theorem guard_run_inv (r : Nat) :
    ∀ (ops : List GuardOp) (c : GuardConfig),
      GuardInv r c → GuardInv r (c.run ops) := by
  intro ops
  induction ops with
  | nil => intro c h; exact h
  | cons op ops ih =>
    intro c h
    exact ih (c.step op) (guard_step_inv r c op h)

/-- C5: starting from a single Guard holding borrowed resource r, after
any sequence of guard lifetime events (destructions, move-constructions,
move-assignments, self-assignment included), the count of live guards
still holding r plus the number of releases of r equals exactly one —
so r is never released twice, and once no live guard holds r any more
(every guard of its move chain has ended), r has been released exactly
once; a moved-from guard (null pool and conn) triggers no release at
all. -/
theorem guard_releases_exactly_once (r : Nat) (ops : List GuardOp) :
    (GuardConfig.run { guards := [{ pool := true, conn := some r }], released := [] }
        ops).guards.countP (holdsRes r) +
      (GuardConfig.run { guards := [{ pool := true, conn := some r }], released := [] }
        ops).released.count r = 1 ∧
    ((GuardConfig.run { guards := [{ pool := true, conn := some r }], released := [] }
        ops).guards.countP (holdsRes r) = 0 →
      (GuardConfig.run { guards := [{ pool := true, conn := some r }], released := [] }
        ops).released.count r = 1) ∧
    (GuardConfig.run { guards := [{ pool := true, conn := some r }], released := [] }
        ops).released.count r ≤ 1 ∧
    Guard.relNow { pool := false, conn := none } = [] := by
  have hinit : GuardInv r
      { guards := [{ pool := true, conn := some r }], released := [] } := by
    constructor
    · simp [List.countP_cons, holdsRes]
    · intro g hg _
      simp at hg
      subst hg
      rfl
  have h := guard_run_inv r ops _ hinit
  obtain ⟨h1, _⟩ := h
  exact ⟨h1, by omega, by omega, rfl⟩

/-- C5 witness: the guard is moved into a fresh guard, the new guard is
destroyed (releasing r once), and the moved-from original is destroyed
(releasing nothing): exactly one release of r in total. -/
theorem guard_releases_exactly_once_witness :
    (GuardConfig.run { guards := [{ pool := true, conn := some 7 }], released := [] }
        [GuardOp.moveFrom 0, GuardOp.destruct 1, GuardOp.destruct 0]).released.count 7
      = 1 :=
  (guard_releases_exactly_once 7
    [GuardOp.moveFrom 0, GuardOp.destruct 1, GuardOp.destruct 0]).2.1 (by decide)

end SqliteFlux
